import Mathlib

/-!
Verification development for the Impostor Word Game backend.

The definitions below are a shallow embedding of the game core:
  * `backend/game/words.py`  — secret-word matching (`is_word_match`),
  * `backend/game/state.py`  — the phase state machine (`GameManager`),
  * `backend/game/logic.py` / `logic2.py` — the turn controller's
    voting-tie policy (`process_elimination`, lines 518-546 / 584-608),
  * `backend/game/prompts2.py` — the persistent conversation manager
    (`GameConversationManager`).

Python's `GameManager` stores games in a dict keyed by game id and each
operation starts with `self.games.get(game_id)`; every claim below is
about a single existing game, so operations are embedded as pure
functions `GameState → …` returning the updated stored game (an
operation that Python ends with `return None` after mutating nothing is
embedded as returning the unchanged state).  `random.shuffle` and
`random.choice` are embedded by an explicit permutation parameter
(`shuffle`) and an explicit index parameter (`k`, reduced modulo the
length of the candidate list), covering every outcome the random source
can produce.  The process-wide leaderboard (`GameManager.leaderboard`)
is keyed by model name and is not part of any per-game claim; it is not
modelled, only per-player `score` inside the game record is.
-/

namespace Impostor

/-- `GamePhase` from `backend/models/schemas.py`. -/
inductive GamePhase where
  | SETUP
  | WORD_REVEAL
  | WORD_ROUND
  | DEBATE
  | VOTING
  | ELIMINATION
  | IMPOSTOR_GUESS
  | GAME_OVER
deriving DecidableEq

/-- `GameResult` from `backend/models/schemas.py`. -/
inductive GameResult where
  | INNOCENTS_WIN
  | IMPOSTOR_WINS_HIDDEN
  | IMPOSTOR_WINS_GUESS
  | ONGOING
deriving DecidableEq

/-- `Player` from `backend/models/schemas.py`, restricted to the fields
read or written by the state-machine operations (the display/config
fields `color`, `word`, `current_vote`, `chat_history` and the per-player
lifetime stats are written only at game creation or never, and no claim
mentions them). -/
structure Player where
  id : String
  model : String := ""
  display_name : String := ""
  is_impostor : Bool := false
  is_human : Bool := false
  is_eliminated : Bool := false
  words_said : List String := []
  score : Int := 0
deriving DecidableEq

/-- `DebateMessage` from `backend/models/schemas.py`; the float
`timestamp` produced by `time.time()` is embedded as an abstract
integer supplied by the caller. -/
structure DebateMessage where
  player_id : String
  player_name : String
  message : String
  timestamp : Int
deriving DecidableEq

/-- `Vote` from `backend/models/schemas.py`. -/
structure Vote where
  voter_id : String
  voted_for_id : String
  justification : String := ""
deriving DecidableEq

/-- `GameState` from `backend/models/schemas.py` (the fields the
state-machine operations touch; `mode` and `debate_duration` are fixed
at creation and never read by the embedded operations). -/
structure GameState where
  id : String
  phase : GamePhase := GamePhase.SETUP
  players : List Player := []
  secret_word : String := ""
  impostor_id : String := ""
  current_round : Nat := 1
  current_player_index : Nat := 0
  debate_messages : List DebateMessage := []
  votes : List Vote := []
  eliminated_players : List String := []
  result : GameResult := GameResult.ONGOING
  impostor_guess : String := ""
  winner : String := ""
deriving DecidableEq

/-! ### Points configuration (`state.py` lines 15-23) -/

def POINTS_vote_correct : Int := 10
def POINTS_impostor_eliminated : Int := 5
def POINTS_impostor_guessed : Int := -5
def POINTS_impostor_not_found : Int := 15
def POINTS_impostor_guess_word : Int := 20
def POINTS_eliminated_innocent : Int := -3

/-! ### Word matching (`backend/game/words.py`, `is_word_match`) -/

/-- Python `str.lower` restricted to the characters this code base can
feed it: ASCII letters and the Spanish accented letters appearing in
`normalize`'s replacement table. -/
def pyLower (c : Char) : Char :=
  if c = 'Á' then 'á' else if c = 'É' then 'é' else if c = 'Í' then 'í'
  else if c = 'Ó' then 'ó' else if c = 'Ú' then 'ú' else if c = 'Ü' then 'ü'
  else if c = 'Ñ' then 'ñ' else c.toLower

def pyIsSpace (c : Char) : Bool :=
  c == ' ' || c == '\t' || c == '\n' || c == '\r'

/-- Python `str.strip`: drop whitespace from both ends. -/
def pyStrip (l : List Char) : List Char :=
  ((l.dropWhile pyIsSpace).reverse.dropWhile pyIsSpace).reverse

/-- The `replacements` dict of `normalize` in `is_word_match`
(`words.py` lines 93-96), in insertion order. -/
def accentReplacements : List (Char × Char) :=
  [('á', 'a'), ('é', 'e'), ('í', 'i'), ('ó', 'o'), ('ú', 'u'),
   ('ü', 'u'), ('ñ', 'n')]

/-- One `result.replace(old, new)` step; `old` and `new` are single
characters, so `str.replace` is a character map. -/
def replaceChar (l : List Char) (old new : Char) : List Char :=
  l.map (fun c => if c == old then new else c)

/-- `normalize` from `is_word_match` (`words.py` lines 92-100):
`s.lower().strip()` followed by the accent replacements. -/
def normalize (s : String) : String :=
  let lowered := pyStrip (s.data.map pyLower)
  String.mk (accentReplacements.foldl (fun acc p => replaceChar acc p.1 p.2) lowered)

/-- `is_word_match` (`words.py` lines 89-102). -/
def is_word_match (guess secret : String) : Bool :=
  normalize guess == normalize secret

/-! ### Vote tallying helpers (`state.py` lines 214-224 and 273-283)

Python builds `vote_counts` as a dict (insertion-ordered by first
occurrence of a target) and then selects the targets holding the
maximum count.  The same expressions appear verbatim in
`process_elimination` and `break_tie_randomly`, so they are shared
here. -/

def bumpVote (acc : List (String × Nat)) (pid : String) : List (String × Nat) :=
  if acc.any (fun kv => kv.1 == pid) then
    acc.map (fun kv => if kv.1 == pid then (kv.1, kv.2 + 1) else kv)
  else
    acc ++ [(pid, 1)]

def voteCounts (votes : List Vote) : List (String × Nat) :=
  votes.foldl (fun acc v => bumpVote acc v.voted_for_id) []

def maxCount (counts : List (String × Nat)) : Nat :=
  (counts.map (fun kv => kv.2)).foldl Nat.max 0

/-- `most_voted` / `tied_players`: the targets sharing the maximum
count, in tally order. -/
def mostVoted (votes : List Vote) : List String :=
  let counts := voteCounts votes
  ((counts.filter (fun kv => kv.2 == maxCount counts)).map (fun kv => kv.1))

/-! ### Player-list update helpers

`state.py` updates players with `for player in game.players: if
player.id == …: …; break` — only the first player carrying the id is
touched. -/

/-- The elimination-marking loop (`state.py` lines 233-236 / 289-292). -/
def markEliminated (pid : String) : List Player → List Player
  | [] => []
  | p :: ps =>
      if p.id = pid then { p with is_eliminated := true } :: ps
      else p :: markEliminated pid ps

/-- The score-update loop of `_update_player_points` (`state.py`
lines 388-395); the leaderboard side effect is out of the game record. -/
def addPoints (pid : String) (pts : Int) : List Player → List Player
  | [] => []
  | p :: ps =>
      if p.id = pid then { p with score := p.score + pts } :: ps
      else p :: addPoints pid pts ps

/-- `next((p for p in game.players if p.id == player_id), None)`. -/
def findPlayer (pid : String) : List Player → Option Player
  | [] => none
  | p :: ps => if p.id = pid then some p else findPlayer pid ps

/-- `next((p for p in game.players if p.is_impostor), None)`. -/
def findImpostor : List Player → Option Player
  | [] => none
  | p :: ps => if p.is_impostor then some p else findImpostor ps

/-- `[p for p in game.players if not p.is_eliminated]`. -/
def activePlayers (ps : List Player) : List Player :=
  ps.filter (fun p => !p.is_eliminated)

/-- `[p for p in game.players if not p.is_eliminated and not
p.is_impostor]`. -/
def activeNonImpostor (ps : List Player) : List Player :=
  ps.filter (fun p => !p.is_eliminated && !p.is_impostor)

/-- `_update_player_points` (`state.py` lines 388-395) restricted to the
game record (the leaderboard aggregate is process-wide state, not part
of the game). -/
def update_player_points (g : GameState) (pid : String) (pts : Int) : GameState :=
  { g with players := addPoints pid pts g.players }

/-- `_end_game` (`state.py` lines 339-386).  Python iterates
`game.players` and mutates scores through `_update_player_points`,
which only ever changes `score`, so folding the score updates over the
original player list is the same computation.  The `_increment_stat`
calls touch only the process-wide leaderboard and are not part of the
game record.  Python's `next(p for p in game.players if p.is_impostor)`
would raise if no player were flagged impostor; that branch is
unreachable for created games and is embedded as the identity. -/
def end_game (g : GameState) (result : GameResult) : GameState :=
  let g0 := { g with phase := GamePhase.GAME_OVER, result := result }
  match result with
  | GameResult.INNOCENTS_WIN =>
      let g1 := { g0 with winner := "innocents" }
      g.players.foldl (fun acc p =>
        if !p.is_impostor then
          let acc1 := update_player_points acc p.id POINTS_impostor_eliminated
          if g.votes.any (fun v => v.voter_id == p.id && v.voted_for_id == g.impostor_id) then
            update_player_points acc1 p.id POINTS_vote_correct
          else acc1
        else acc) g1
  | GameResult.IMPOSTOR_WINS_GUESS =>
      let g1 := { g0 with winner := "impostor" }
      match findImpostor g.players with
      | some imp =>
          let g2 := update_player_points g1 imp.id POINTS_impostor_guess_word
          g.players.foldl (fun acc p =>
            if !p.is_impostor then
              update_player_points acc p.id POINTS_impostor_guessed
            else acc) g2
      | none => g1
  | GameResult.IMPOSTOR_WINS_HIDDEN =>
      let g1 := { g0 with winner := "impostor" }
      match findImpostor g.players with
      | some imp => update_player_points g1 imp.id POINTS_impostor_not_found
      | none => g1
  | GameResult.ONGOING => g0

/-! ### State-machine operations (`state.py`, `GameManager`) -/

/-- `start_game` (`state.py` lines 117-122). -/
def start_game (g : GameState) : GameState :=
  if g.phase = GamePhase.SETUP then { g with phase := GamePhase.WORD_REVEAL } else g

/-- `advance_to_word_round` (`state.py` lines 124-136); `shuffle`
stands for `random.shuffle` acting on the active players. -/
def advance_to_word_round (shuffle : List Player → List Player) (g : GameState) : GameState :=
  if g.phase = GamePhase.WORD_REVEAL then
    let active := shuffle (g.players.filter (fun p => !p.is_eliminated))
    let eliminated := g.players.filter (fun p => p.is_eliminated)
    { g with phase := GamePhase.WORD_ROUND, current_player_index := 0,
             players := active ++ eliminated }
  else g

/-- The word-appending loop of `record_player_word` (`state.py`
lines 144-147). -/
def appendWord (pid word : String) : List Player → List Player
  | [] => []
  | p :: ps =>
      if p.id = pid then { p with words_said := p.words_said ++ [word] } :: ps
      else p :: appendWord pid word ps

/-- `record_player_word` (`state.py` lines 138-158). -/
def record_player_word (g : GameState) (player_id word : String) : GameState :=
  if g.phase ≠ GamePhase.WORD_ROUND then g
  else
    let g1 := { g with players := appendWord player_id word g.players,
                       current_player_index := g.current_player_index + 1 }
    if (activePlayers g1.players).length ≤ g1.current_player_index then
      { g1 with phase := GamePhase.DEBATE, current_player_index := 0 }
    else g1

/-- `add_debate_message` (`state.py` lines 160-176); `ts` is the
`time.time()` value. -/
def add_debate_message (g : GameState) (player_id message : String) (ts : Int) : GameState :=
  if g.phase ≠ GamePhase.DEBATE then g
  else
    match findPlayer player_id g.players with
    | some p =>
        { g with debate_messages :=
            g.debate_messages ++ [⟨player_id, p.display_name, message, ts⟩] }
    | none => g

/-- `start_voting` (`state.py` lines 178-184). -/
def start_voting (g : GameState) : GameState :=
  if g.phase = GamePhase.DEBATE ∨ g.phase = GamePhase.ELIMINATION then
    { g with phase := GamePhase.VOTING, votes := [] }
  else g

/-- `record_vote` (`state.py` lines 186-203). -/
def record_vote (g : GameState) (voter_id voted_for_id justification : String) : GameState :=
  if g.phase ≠ GamePhase.VOTING then g
  else if g.votes.any (fun v => v.voter_id == voter_id) then g
  else
    let g1 := { g with votes := g.votes ++ [⟨voter_id, voted_for_id, justification⟩] }
    if (activePlayers g1.players).length ≤ g1.votes.length then
      { g1 with phase := GamePhase.ELIMINATION }
    else g1

/-- `process_elimination` (`state.py` lines 205-265).  The Python
return value `(game_state, eliminated_player_id, is_tie)` is embedded
with the stored game in the first component (the wrong-phase and
no-votes branches return the stored game unchanged next to
`(None, False)`). -/
def process_elimination (g : GameState) : GameState × Option String × Bool :=
  if g.phase ≠ GamePhase.ELIMINATION then (g, none, false)
  else if voteCounts g.votes = [] then (g, none, false)
  else
    let most_voted := mostVoted g.votes
    if 1 < most_voted.length then (g, none, true)
    else
      let eliminated_id := most_voted.headD ""
      let g1 := { g with players := markEliminated eliminated_id g.players,
                         eliminated_players := g.eliminated_players ++ [eliminated_id] }
      if eliminated_id = g.impostor_id then
        ({ g1 with phase := GamePhase.IMPOSTOR_GUESS }, some eliminated_id, false)
      else
        let g2 := update_player_points g1 eliminated_id POINTS_eliminated_innocent
        if (activeNonImpostor g2.players).length ≤ 1 then
          (end_game g2 GameResult.IMPOSTOR_WINS_HIDDEN, some eliminated_id, false)
        else
          ({ g2 with current_round := g2.current_round + 1,
                     phase := GamePhase.WORD_ROUND,
                     current_player_index := 0,
                     debate_messages := [],
                     votes := [] }, some eliminated_id, false)

/-- `break_tie_randomly` (`state.py` lines 267-318).  Note the source
checks only that the game exists and that some votes were cast — there
is no phase guard.  `k` selects the outcome of `random.choice` over the
tied targets. -/
def break_tie_randomly (k : Nat) (g : GameState) : GameState × Option String :=
  if voteCounts g.votes = [] then (g, none)
  else
    let tied_players := mostVoted g.votes
    let eliminated_id := tied_players.getD (k % tied_players.length) ""
    let g1 := { g with players := markEliminated eliminated_id g.players,
                       eliminated_players := g.eliminated_players ++ [eliminated_id] }
    if eliminated_id = g.impostor_id then
      ({ g1 with phase := GamePhase.IMPOSTOR_GUESS }, some eliminated_id)
    else
      let g2 := update_player_points g1 eliminated_id POINTS_eliminated_innocent
      if (activeNonImpostor g2.players).length ≤ 1 then
        (end_game g2 GameResult.IMPOSTOR_WINS_HIDDEN, some eliminated_id)
      else
        ({ g2 with current_round := g2.current_round + 1,
                   phase := GamePhase.WORD_ROUND,
                   current_player_index := 0,
                   debate_messages := [],
                   votes := [] }, some eliminated_id)

/-- `process_impostor_guess` (`state.py` lines 320-337). -/
def process_impostor_guess (g : GameState) (guess : String) : GameState :=
  if g.phase ≠ GamePhase.IMPOSTOR_GUESS then g
  else
    let g1 := { g with impostor_guess := guess }
    if is_word_match guess g1.secret_word then
      end_game g1 GameResult.IMPOSTOR_WINS_GUESS
    else
      end_game g1 GameResult.INNOCENTS_WIN

/-! ### Turn-controller voting-tie policy
(`logic.py` `GameController.process_elimination` lines 518-546 and the
identical `logic2.py` `GameController2.process_elimination` lines
584-608). -/

/-- What the controller does after reading `is_tie` from the state
machine's `process_elimination`. -/
inductive TieAction where
  /-- broadcast the tie and re-enter a fresh voting phase -/
  | retryVoting
  /-- call `game_manager.break_tie_randomly` -/
  | breakRandomly
  /-- broadcast the elimination and continue -/
  | proceedElimination
deriving DecidableEq

/-- The tie-handling block of the controller's `process_elimination`:
given the stored `_tie_attempts` counter and the `is_tie` flag returned
by the state machine, it yields the action taken and the new counter
value (`self._tie_attempts` after the block). -/
def controller_tie_step (tie_attempts : Nat) (tied : Bool) : TieAction × Nat :=
  if tied then
    let attempts := tie_attempts + 1
    if 2 ≤ attempts then (TieAction.breakRandomly, 0)
    else (TieAction.retryVoting, attempts)
  else (TieAction.proceedElimination, 0)

/-! ### Persistent conversation manager (`backend/game/prompts2.py`) -/

/-- `ChatMessage` from `prompts2.py` (the `role` literal is kept as a
plain string). -/
structure ChatEntry where
  role : String
  content : String
deriving DecidableEq

/-- `PlayerConversation` from `prompts2.py`, restricted to the fields
the broadcast path reads or writes (`model`, `secret_word`,
`player_word`, `words_said` and the system-prompt seeding feed the
inference calls, not the broadcast logic). -/
structure PlayerConversation where
  player_id : String
  player_name : String
  is_impostor : Bool := false
  messages : List ChatEntry := []
  is_eliminated : Bool := false
deriving DecidableEq

/-- `GameConversationManager` from `prompts2.py`; the Python
`conversations` dict (insertion-ordered, keyed by player id) is an
association list. -/
structure GameConversationManager where
  game_id : String
  conversations : List (String × PlayerConversation) := []
deriving DecidableEq

/-- `PlayerConversation.add_user_message`. -/
def add_user_message (c : PlayerConversation) (content : String) : PlayerConversation :=
  { c with messages := c.messages ++ [⟨"user", content⟩] }

/-- `GameConversationManager.broadcast_to_all` (`prompts2.py` lines
211-215): append a user message to every conversation whose key is not
the excluded id and whose `is_eliminated` flag is off. -/
def broadcast_to_all (m : GameConversationManager) (content : String)
    (exclude_player_id : Option String) : GameConversationManager :=
  { m with conversations := m.conversations.map (fun pc =>
      if some pc.1 ≠ exclude_player_id ∧ pc.2.is_eliminated = false then
        (pc.1, add_user_message pc.2 content)
      else pc) }

/-- `format_word_announcement` (`prompts2.py` lines 393-395). -/
def format_word_announcement (player_name word : String) : String :=
  "[PALABRA] " ++ player_name ++ " dice: \"" ++ word ++ "\""

/-- `format_debate_announcement` (`prompts2.py` lines 398-400). -/
def format_debate_announcement (player_name message : String) : String :=
  "[DEBATE] " ++ player_name ++ ": \"" ++ message ++ "\""

/-- `format_vote_announcement` (`prompts2.py` lines 403-405). -/
def format_vote_announcement (voter_name voted_for reason : String) : String :=
  "[VOTO] " ++ voter_name ++ " vota por " ++ voted_for ++ ": \"" ++ reason ++ "\""

/-- `format_elimination_announcement` (`prompts2.py` lines 408-412). -/
def format_elimination_announcement (player_name : String) (was_impostor : Bool) : String :=
  let role := if was_impostor then "el IMPOSTOR" else "INOCENTE"
  let emoji := if was_impostor then "🎭" else "😇"
  "[ELIMINADO] " ++ emoji ++ " " ++ player_name ++ " fue eliminado. Era " ++ role ++ "."

/-- `broadcast_word` (`prompts2.py` lines 217-220): excludes the
speaker. -/
def broadcast_word (m : GameConversationManager) (speaker_id speaker_name word : String) :
    GameConversationManager :=
  broadcast_to_all m (format_word_announcement speaker_name word) (some speaker_id)

/-- `broadcast_debate_message` (`prompts2.py` lines 222-225): excludes
the speaker. -/
def broadcast_debate_message (m : GameConversationManager)
    (speaker_id speaker_name message : String) : GameConversationManager :=
  broadcast_to_all m (format_debate_announcement speaker_name message) (some speaker_id)

/-- `broadcast_vote` (`prompts2.py` lines 227-230): no exclusion — the
voter's own conversation receives the announcement too. -/
def broadcast_vote (m : GameConversationManager) (voter_name voted_for reason : String) :
    GameConversationManager :=
  broadcast_to_all m (format_vote_announcement voter_name voted_for reason) none

/-- `broadcast_elimination` (`prompts2.py` lines 232-235): no
exclusion. -/
def broadcast_elimination (m : GameConversationManager) (player_name : String)
    (was_impostor : Bool) : GameConversationManager :=
  broadcast_to_all m (format_elimination_announcement player_name was_impostor) none

/-- Placeholder pair used with `List.getD` when indexing conversation
lists. -/
def dummyEntry : String × PlayerConversation :=
  ("", { player_id := "", player_name := "" })

/-! ### Concrete game records used by witnesses and counterexamples -/

/-- Shorthand for a test player `player_i`. -/
def mkPlayer (i : Nat) (imp : Bool := false) : Player :=
  { id := "player_" ++ toString i, display_name := "P" ++ toString i, is_impostor := imp }

/-- A finished game: its phase (`GAME_OVER`) is a valid phase for none
of the nine operations. -/
def exGameOver : GameState :=
  { id := "gover", phase := GamePhase.GAME_OVER,
    players := [mkPlayer 0 true, mkPlayer 1], impostor_id := "player_0" }

/-- A game in mid-`VOTING` (only one of two active players has voted) —
not a phase in which tie breaking is meaningful. -/
def exGameMidVoting : GameState :=
  { id := "gbt", phase := GamePhase.VOTING,
    players := [mkPlayer 0 true, mkPlayer 1], impostor_id := "player_0",
    votes := [⟨"player_0", "player_1", ""⟩] }

/-- `ELIMINATION` phase with a unique maximum target (`player_1`). -/
def exGameUniqueMax : GameState :=
  { id := "guni", phase := GamePhase.ELIMINATION,
    players := [mkPlayer 0, mkPlayer 1, mkPlayer 2 true], impostor_id := "player_2",
    votes := [⟨"player_0", "player_1", ""⟩, ⟨"player_2", "player_1", ""⟩,
              ⟨"player_1", "player_0", ""⟩] }

/-- `ELIMINATION` phase with two targets tied at the maximum. -/
def exGameTiedVotes : GameState :=
  { id := "gtie", phase := GamePhase.ELIMINATION,
    players := [mkPlayer 0, mkPlayer 1, mkPlayer 2 true], impostor_id := "player_2",
    votes := [⟨"player_0", "player_1", ""⟩, ⟨"player_1", "player_0", ""⟩,
              ⟨"player_2", "player_0", ""⟩, ⟨"player_3", "player_1", ""⟩] }

/-- A fresh `VOTING` phase with three active players and no votes. -/
def exGameFreshVoting : GameState :=
  { id := "gvote", phase := GamePhase.VOTING,
    players := [mkPlayer 0, mkPlayer 1, mkPlayer 2 true], impostor_id := "player_2" }

/-- `VOTING` phase in which `player_0` has already voted. -/
def exGameVoted : GameState :=
  { id := "gvoted", phase := GamePhase.VOTING,
    players := [mkPlayer 0, mkPlayer 1, mkPlayer 2 true], impostor_id := "player_2",
    votes := [⟨"player_0", "player_1", "primero"⟩] }

/-- `VOTING` phase with two active players and one vote already cast by
an id (`ghost1`) that belongs to no player. -/
def exGameGhostVote : GameState :=
  { id := "gghost", phase := GamePhase.VOTING,
    players := [mkPlayer 0 true, mkPlayer 1], impostor_id := "player_0",
    votes := [⟨"ghost1", "player_1", ""⟩] }

/-- `IMPOSTOR_GUESS` phase with secret word `cafe`. -/
def exGameGuess : GameState :=
  { id := "gguess", phase := GamePhase.IMPOSTOR_GUESS,
    players := [mkPlayer 0, mkPlayer 1 true], impostor_id := "player_1",
    secret_word := "cafe",
    eliminated_players := ["player_1"] }

/-- The spec's five-player scenario: secret word `playa`, impostor
`player_4`, all four innocents voting for the impostor, the impostor
voting for `player_0`, vote processing pending. -/
def exGameFivePlayers : GameState :=
  { id := "g5", phase := GamePhase.ELIMINATION,
    players := [mkPlayer 0, mkPlayer 1, mkPlayer 2, mkPlayer 3, mkPlayer 4 true],
    secret_word := "playa", impostor_id := "player_4",
    votes := [⟨"player_0", "player_4", ""⟩, ⟨"player_1", "player_4", ""⟩,
              ⟨"player_2", "player_4", ""⟩, ⟨"player_3", "player_4", ""⟩,
              ⟨"player_4", "player_0", ""⟩] }

/-- A two-player conversation manager with empty transcripts, both
active. -/
def exManager : GameConversationManager :=
  { game_id := "gm",
    conversations :=
      [("player_0", { player_id := "player_0", player_name := "Alice" }),
       ("player_1", { player_id := "player_1", player_name := "Bob" })] }

/-! ## Helper lemmas -/

theorem foldl_preserves {α β : Type} (P : β → Prop) (f : β → α → β)
    (h : ∀ b a, P b → P (f b a)) : ∀ (l : List α) (b : β), P b → P (l.foldl f b)
  | [], _, hb => hb
  | a :: l, b, hb => foldl_preserves P f h l (f b a) (h b a hb)

theorem end_game_fields (g : GameState) (r : GameResult) :
    (end_game g r).phase = GamePhase.GAME_OVER ∧
    (end_game g r).result = r ∧
    (end_game g r).impostor_guess = g.impostor_guess ∧
    (end_game g r).eliminated_players = g.eliminated_players := by
  have hstep : ∀ (f : GameState → Player → GameState),
      (∀ b a, (f b a).phase = b.phase ∧ (f b a).result = b.result ∧
        (f b a).impostor_guess = b.impostor_guess ∧
        (f b a).eliminated_players = b.eliminated_players) →
      ∀ (l : List Player) (b : GameState),
        ((l.foldl f b).phase = b.phase ∧ (l.foldl f b).result = b.result ∧
         (l.foldl f b).impostor_guess = b.impostor_guess ∧
         (l.foldl f b).eliminated_players = b.eliminated_players) := by
    intro f hf l
    induction l with
    | nil => intro b; exact ⟨rfl, rfl, rfl, rfl⟩
    | cons a l ih =>
        intro b
        have h1 := ih (f b a)
        have h2 := hf b a
        simp only [List.foldl_cons]
        exact ⟨h1.1.trans h2.1, h1.2.1.trans h2.2.1,
               h1.2.2.1.trans h2.2.2.1, h1.2.2.2.trans h2.2.2.2⟩
  cases r with
  | INNOCENTS_WIN =>
      have := hstep
        (fun acc p =>
          if !p.is_impostor then
            let acc1 := update_player_points acc p.id POINTS_impostor_eliminated
            if g.votes.any (fun v => v.voter_id == p.id && v.voted_for_id == g.impostor_id) then
              update_player_points acc1 p.id POINTS_vote_correct
            else acc1
          else acc)
        (by
          intro b a
          dsimp only
          split
          · split <;> exact ⟨rfl, rfl, rfl, rfl⟩
          · exact ⟨rfl, rfl, rfl, rfl⟩)
        g.players
        { g with phase := GamePhase.GAME_OVER, result := GameResult.INNOCENTS_WIN,
                 winner := "innocents" }
      simpa [end_game] using this
  | IMPOSTOR_WINS_GUESS =>
      cases himp : findImpostor g.players with
      | none => simp [end_game, himp]
      | some imp =>
          have := hstep
            (fun acc p =>
              if !p.is_impostor then
                update_player_points acc p.id POINTS_impostor_guessed
              else acc)
            (by
              intro b a
              dsimp only
              split <;> exact ⟨rfl, rfl, rfl, rfl⟩)
            g.players
            (update_player_points
              { g with phase := GamePhase.GAME_OVER,
                       result := GameResult.IMPOSTOR_WINS_GUESS, winner := "impostor" }
              imp.id POINTS_impostor_guess_word)
          simpa [end_game, himp, update_player_points] using this
  | IMPOSTOR_WINS_HIDDEN =>
      cases himp : findImpostor g.players with
      | none => simp [end_game, himp]
      | some imp => simp [end_game, himp, update_player_points]
  | ONGOING => simp [end_game]

theorem end_game_hidden_winner (g : GameState) :
    (end_game g GameResult.IMPOSTOR_WINS_HIDDEN).winner = "impostor" := by
  cases himp : findImpostor g.players <;> simp [end_game, himp, update_player_points]

theorem findPlayer_markEliminated_self (pid : String) (l : List Player) :
    findPlayer pid (markEliminated pid l) =
      (findPlayer pid l).map (fun q => { q with is_eliminated := true }) := by
  induction l with
  | nil => rfl
  | cons p ps ih =>
      by_cases h : p.id = pid
      · simp [markEliminated, findPlayer, h]
      · simp [markEliminated, findPlayer, h, ih]

theorem findPlayer_markEliminated_ne (u pid : String) (l : List Player) (h : u ≠ pid) :
    findPlayer u (markEliminated pid l) = findPlayer u l := by
  have h2 : pid ≠ u := Ne.symm h
  induction l with
  | nil => rfl
  | cons p ps ih =>
      by_cases hp : p.id = pid
      · simp [markEliminated, findPlayer, hp, h2]
      · simp [markEliminated, findPlayer, hp, ih]

theorem findPlayer_addPoints_self (pid : String) (pts : Int) (l : List Player) :
    findPlayer pid (addPoints pid pts l) =
      (findPlayer pid l).map (fun q => { q with score := q.score + pts }) := by
  induction l with
  | nil => rfl
  | cons p ps ih =>
      by_cases h : p.id = pid
      · simp [addPoints, findPlayer, h]
      · simp [addPoints, findPlayer, h, ih]

theorem findPlayer_addPoints_ne (u pid : String) (pts : Int) (l : List Player) (h : u ≠ pid) :
    findPlayer u (addPoints pid pts l) = findPlayer u l := by
  have h2 : pid ≠ u := Ne.symm h
  induction l with
  | nil => rfl
  | cons p ps ih =>
      by_cases hp : p.id = pid
      · simp [addPoints, findPlayer, hp, h2]
      · simp [addPoints, findPlayer, hp, ih]

theorem activeNonImpostor_addPoints (pid : String) (pts : Int) (l : List Player) :
    (activeNonImpostor (addPoints pid pts l)).length = (activeNonImpostor l).length := by
  induction l with
  | nil => rfl
  | cons p ps ih =>
      have ih2 := ih
      simp only [activeNonImpostor] at ih2
      by_cases h : p.id = pid
      · simp only [addPoints, if_pos h, activeNonImpostor, List.filter_cons]
        by_cases hc : (!p.is_eliminated && !p.is_impostor) = true
        · simp [hc]
        · simp [hc]
      · simp only [addPoints, if_neg h, activeNonImpostor, List.filter_cons]
        by_cases hc : (!p.is_eliminated && !p.is_impostor) = true
        · simp [hc, ih2]
        · simpa [hc] using ih2

theorem findImpostor_mem (l : List Player) (p : Player) (h : findImpostor l = some p) :
    p ∈ l ∧ p.is_impostor = true := by
  induction l with
  | nil => simp [findImpostor] at h
  | cons q ps ih =>
      by_cases hq : q.is_impostor = true
      · simp only [findImpostor, if_pos hq, Option.some.injEq] at h
        exact ⟨by simp [← h], h ▸ hq⟩
      · simp only [findImpostor, if_neg hq] at h
        have := ih h
        exact ⟨List.mem_cons_of_mem _ this.1, this.2⟩

theorem impostor_ids_markEliminated (pid imp : String) (l : List Player)
    (h : ∀ q ∈ l, q.is_impostor = true → q.id = imp) :
    ∀ q ∈ markEliminated pid l, q.is_impostor = true → q.id = imp := by
  induction l with
  | nil => simp [markEliminated]
  | cons p ps ih =>
      have hp := h p (List.mem_cons_self p ps)
      have hps := fun q hq => h q (List.mem_cons_of_mem p hq)
      by_cases hc : p.id = pid
      · intro q hq
        simp only [markEliminated, if_pos hc, List.mem_cons] at hq
        rcases hq with hq | hq
        · subst hq; exact hp
        · exact hps q hq
      · intro q hq
        simp only [markEliminated, if_neg hc, List.mem_cons] at hq
        rcases hq with hq | hq
        · subst hq; exact hp
        · exact ih hps q hq

theorem impostor_ids_addPoints (pid : String) (pts : Int) (imp : String) (l : List Player)
    (h : ∀ q ∈ l, q.is_impostor = true → q.id = imp) :
    ∀ q ∈ addPoints pid pts l, q.is_impostor = true → q.id = imp := by
  induction l with
  | nil => simp [addPoints]
  | cons p ps ih =>
      have hp := h p (List.mem_cons_self p ps)
      have hps := fun q hq => h q (List.mem_cons_of_mem p hq)
      by_cases hc : p.id = pid
      · intro q hq
        simp only [addPoints, if_pos hc, List.mem_cons] at hq
        rcases hq with hq | hq
        · subst hq; exact hp
        · exact hps q hq
      · intro q hq
        simp only [addPoints, if_neg hc, List.mem_cons] at hq
        rcases hq with hq | hq
        · subst hq; exact hp
        · exact ih hps q hq

/-! ## Claim C1 -/

/-- Claim C1, counterexample: `break_tie_randomly` carries no phase
guard.  Called on a game sitting in mid-`VOTING` (a phase in which tie
breaking is not a valid operation) with one vote cast, it eliminates
the voted player and drives the game all the way to `GAME_OVER` —
the state is not left unchanged. -/
theorem break_tie_phase_unchecked_cex :
    exGameMidVoting.phase = GamePhase.VOTING ∧
    (break_tie_randomly 0 exGameMidVoting).1.phase = GamePhase.GAME_OVER ∧
    (break_tie_randomly 0 exGameMidVoting).1.eliminated_players = ["player_1"] ∧
    (break_tie_randomly 0 exGameMidVoting).1 ≠ exGameMidVoting := by
  decide

/-- Claim C1, amended: the eight operations `start_game`,
`advance_to_word_round`, `record_player_word`, `add_debate_message`,
`start_voting`, `record_vote`, `process_elimination` and
`process_impostor_guess` leave the game unchanged when called out of
phase; `break_tie_randomly` checks no phase at all — its only silent
no-op case is an empty vote tally. -/
theorem state_machine_out_of_phase_noop (g : GameState)
    (shuffle : List Player → List Player)
    (pid w msg voter target j guess : String) (ts : Int) (k : Nat) :
    (g.phase ≠ GamePhase.SETUP → start_game g = g) ∧
    (g.phase ≠ GamePhase.WORD_REVEAL → advance_to_word_round shuffle g = g) ∧
    (g.phase ≠ GamePhase.WORD_ROUND → record_player_word g pid w = g) ∧
    (g.phase ≠ GamePhase.DEBATE → add_debate_message g pid msg ts = g) ∧
    (¬(g.phase = GamePhase.DEBATE ∨ g.phase = GamePhase.ELIMINATION) → start_voting g = g) ∧
    (g.phase ≠ GamePhase.VOTING → record_vote g voter target j = g) ∧
    (g.phase ≠ GamePhase.ELIMINATION → process_elimination g = (g, none, false)) ∧
    (g.phase ≠ GamePhase.IMPOSTOR_GUESS → process_impostor_guess g guess = g) ∧
    (g.votes = [] → break_tie_randomly k g = (g, none)) :=
  ⟨fun h => by simp [start_game, h],
   fun h => by simp [advance_to_word_round, h],
   fun h => by simp [record_player_word, h],
   fun h => by simp [add_debate_message, h],
   fun h => by simp [start_voting, h],
   fun h => by simp [record_vote, h],
   fun h => by simp [process_elimination, h],
   fun h => by simp [process_impostor_guess, h],
   fun h => by simp [break_tie_randomly, h, voteCounts]⟩

/-- Witness for the amended C1 theorem on a finished game
(`GAME_OVER` is a valid phase for none of the operations and the
finished game has no votes). -/
theorem state_machine_out_of_phase_noop_witness :
    start_game exGameOver = exGameOver ∧
    advance_to_word_round id exGameOver = exGameOver ∧
    record_player_word exGameOver "player_0" "sol" = exGameOver ∧
    add_debate_message exGameOver "player_0" "hola" 0 = exGameOver ∧
    start_voting exGameOver = exGameOver ∧
    record_vote exGameOver "player_0" "player_1" "" = exGameOver ∧
    process_elimination exGameOver = (exGameOver, none, false) ∧
    process_impostor_guess exGameOver "sol" = exGameOver ∧
    break_tie_randomly 0 exGameOver = (exGameOver, none) := by
  have h := state_machine_out_of_phase_noop exGameOver id
    "player_0" "sol" "hola" "player_0" "player_1" "" "sol" 0 0
  exact ⟨h.1 (by decide), h.2.1 (by decide), h.2.2.1 (by decide),
         h.2.2.2.1 (by decide), h.2.2.2.2.1 (by decide), h.2.2.2.2.2.1 (by decide),
         h.2.2.2.2.2.2.1 (by decide), h.2.2.2.2.2.2.2.1 (by decide),
         h.2.2.2.2.2.2.2.2 (by decide)⟩

/-! ## Claim C3 -/

/-- Claim C3: in the `ELIMINATION` phase, when two or more targets
share the maximum vote count, `process_elimination` returns the tie
signal and the whole game state — phase, eliminations, scores, votes,
rounds, players — is returned unchanged. -/
theorem process_elimination_tie_noop (g : GameState)
    (hph : g.phase = GamePhase.ELIMINATION)
    (hlen : 2 ≤ (mostVoted g.votes).length) :
    process_elimination g = (g, none, true) := by
  have hc : voteCounts g.votes ≠ [] := by
    intro h
    simp [mostVoted, h] at hlen
  rw [process_elimination, if_neg (by simp [hph]), if_neg hc]
  simp only []
  rw [if_pos (by omega)]

/-- Witness for C3 at a concrete two-way tie. -/
theorem process_elimination_tie_noop_witness :
    2 ≤ (mostVoted exGameTiedVotes.votes).length ∧
    process_elimination exGameTiedVotes = (exGameTiedVotes, none, true) :=
  ⟨by decide, process_elimination_tie_noop exGameTiedVotes rfl (by decide)⟩

/-! ## Claim C4 -/

/-- Claim C4, counterexample: starting from a fresh tie counter, the
first tied outcome retries voting, but the second consecutive tied
outcome already forces `break_tie_randomly` — the controller does not
retry the voting phase a second time before breaking the tie
randomly. -/
theorem second_tie_breaks_randomly_cex :
    controller_tie_step 0 true = (TieAction.retryVoting, 1) ∧
    (controller_tie_step (controller_tie_step 0 true).2 true).1 = TieAction.breakRandomly ∧
    (controller_tie_step (controller_tie_step 0 true).2 true).1 ≠ TieAction.retryVoting := by
  decide

/-- Claim C4, amended: after a tie the controller retries the full
voting phase once; if the retry ties as well (the second consecutive
tied outcome, counter already at one) it forces a uniformly random
choice among the tied targets via `break_tie_randomly`; any non-tied
elimination resets the tie counter to zero. -/
theorem controller_tie_policy (n : Nat) :
    controller_tie_step n false = (TieAction.proceedElimination, 0) ∧
    controller_tie_step 0 true = (TieAction.retryVoting, 1) ∧
    (1 ≤ n → controller_tie_step n true = (TieAction.breakRandomly, 0)) := by
  refine ⟨rfl, rfl, fun h => ?_⟩
  simp only [controller_tie_step, if_pos rfl]
  rw [if_pos (show 2 ≤ n + 1 from by omega)]
  simp

/-- Witness for the amended C4 theorem at counter value one. -/
theorem controller_tie_policy_witness :
    controller_tie_step 1 false = (TieAction.proceedElimination, 0) ∧
    controller_tie_step 1 true = (TieAction.breakRandomly, 0) :=
  ⟨(controller_tie_policy 1).1, (controller_tie_policy 1).2.2 (by decide)⟩

/-! ## Claim C5 -/

/-- Claim C5, counterexample: `record_vote` performs no self-vote
check.  In a fresh `VOTING` phase, a vote whose target equals the
voter is recorded, so the vote list does contain a vote with
`voter_id = voted_for_id`. -/
theorem record_vote_self_vote_cex :
    (record_vote exGameFreshVoting "player_0" "player_0" "yo").votes =
      [⟨"player_0", "player_0", "yo"⟩] ∧
    ((record_vote exGameFreshVoting "player_0" "player_0" "yo").votes.any
        (fun v => v.voter_id == v.voted_for_id)) = true := by
  decide

/-- Claim C5, amended: `record_vote` rejects only duplicate voters; a
first vote from a voter is appended even when its target equals the
voter, so self-votes reach the vote list (they are prevented only
upstream, by the controller's vote-request path, not by the state
machine). -/
theorem record_vote_accepts_self_vote (g : GameState) (voter j : String)
    (hph : g.phase = GamePhase.VOTING)
    (hnew : g.votes.any (fun v => v.voter_id == voter) = false) :
    (record_vote g voter voter j).votes = g.votes ++ [⟨voter, voter, j⟩] := by
  rw [record_vote, if_neg (by simp [hph]), if_neg (by simp [hnew])]
  simp only []
  split <;> rfl

/-- Witness for the amended C5 theorem. -/
theorem record_vote_accepts_self_vote_witness :
    (record_vote exGameFreshVoting "player_0" "player_0" "nota").votes =
      exGameFreshVoting.votes ++ [⟨"player_0", "player_0", "nota"⟩] :=
  record_vote_accepts_self_vote exGameFreshVoting "player_0" "nota" rfl (by decide)

/-! ## Claim C2 -/

/-- Claim C2: in the `ELIMINATION` phase with a unique maximum-vote
target `t`, `process_elimination` returns `is_tie = false` and
eliminated id `t`, appends `t` to the eliminated list and marks the
(first) player with id `t` eliminated.  If `t` is the impostor the
phase becomes `IMPOSTOR_GUESS` (and no other player record changes);
otherwise the eliminated innocent also takes the negative score
adjustment, and then either fewer than two non-impostor non-eliminated
players remain and the game ends as impostor-wins-by-concealment, or
the round counter increments, debate messages and votes are cleared
and the phase returns to `WORD_ROUND`.  (`himp` is the creation-time
invariant that the impostor flag agrees with `impostor_id`.) -/
theorem process_elimination_unique_max (g : GameState) (t : String)
    (hph : g.phase = GamePhase.ELIMINATION)
    (ht : mostVoted g.votes = [t])
    (himp : ∀ q ∈ g.players, q.is_impostor = true → q.id = g.impostor_id) :
    (process_elimination g).2.2 = false ∧
    (process_elimination g).2.1 = some t ∧
    (process_elimination g).1.eliminated_players = g.eliminated_players ++ [t] ∧
    (t = g.impostor_id →
        (process_elimination g).1.phase = GamePhase.IMPOSTOR_GUESS ∧
        findPlayer t (process_elimination g).1.players =
          (findPlayer t g.players).map (fun q => { q with is_eliminated := true }) ∧
        (∀ u, u ≠ t → findPlayer u (process_elimination g).1.players = findPlayer u g.players)) ∧
    (t ≠ g.impostor_id →
        findPlayer t (process_elimination g).1.players =
          (findPlayer t g.players).map
            (fun q => { q with is_eliminated := true,
                               score := q.score + POINTS_eliminated_innocent }) ∧
        (if (activeNonImpostor (markEliminated t g.players)).length ≤ 1 then
            (process_elimination g).1.phase = GamePhase.GAME_OVER ∧
            (process_elimination g).1.result = GameResult.IMPOSTOR_WINS_HIDDEN ∧
            (process_elimination g).1.winner = "impostor"
         else
            (process_elimination g).1.phase = GamePhase.WORD_ROUND ∧
            (process_elimination g).1.current_round = g.current_round + 1 ∧
            (process_elimination g).1.debate_messages = [] ∧
            (process_elimination g).1.votes = [] ∧
            (process_elimination g).1.current_player_index = 0)) := by
  have hc : voteCounts g.votes ≠ [] := by
    intro h
    simp [mostVoted, h] at ht
  have hcompose : findPlayer t (addPoints t POINTS_eliminated_innocent (markEliminated t g.players)) =
      (findPlayer t g.players).map
        (fun q => { q with is_eliminated := true,
                           score := q.score + POINTS_eliminated_innocent }) := by
    rw [findPlayer_addPoints_self, findPlayer_markEliminated_self]
    cases findPlayer t g.players <;> rfl
  rw [process_elimination, if_neg (by simp [hph]), if_neg hc]
  simp only [ht, List.length_singleton, lt_self_iff_false, if_false, List.headD_cons]
  by_cases himp_t : t = g.impostor_id
  · rw [if_pos himp_t]
    refine ⟨rfl, rfl, rfl, fun _ => ⟨rfl, ?_, fun u hu => ?_⟩, fun hne => absurd himp_t hne⟩
    · exact findPlayer_markEliminated_self t g.players
    · exact findPlayer_markEliminated_ne u t g.players hu
  · rw [if_neg himp_t]
    have hlen : (activeNonImpostor
        (addPoints t POINTS_eliminated_innocent (markEliminated t g.players))).length =
        (activeNonImpostor (markEliminated t g.players)).length :=
      activeNonImpostor_addPoints t POINTS_eliminated_innocent (markEliminated t g.players)
    by_cases hle : (activeNonImpostor (markEliminated t g.players)).length ≤ 1
    · rw [if_pos (by simpa [update_player_points, hlen] using hle)]
      simp only [update_player_points]
      refine ⟨by trivial, by trivial, (end_game_fields _ GameResult.IMPOSTOR_WINS_HIDDEN).2.2.2,
              fun heq => absurd heq himp_t, fun _ => ⟨?_, ?_⟩⟩
      · -- the impostor-bonus update inside `end_game` targets the
        -- impostor's id, which differs from `t`
        have htrans : ∀ q ∈ addPoints t POINTS_eliminated_innocent (markEliminated t g.players),
            q.is_impostor = true → q.id = g.impostor_id :=
          impostor_ids_addPoints t POINTS_eliminated_innocent g.impostor_id _
            (impostor_ids_markEliminated t g.impostor_id g.players himp)
        simp only [end_game]
        cases hfi : findImpostor (addPoints t POINTS_eliminated_innocent
            (markEliminated t g.players)) with
        | none => exact hcompose
        | some imp =>
            have himp_id : imp.id = g.impostor_id := by
              have hm := findImpostor_mem _ imp hfi
              exact htrans imp hm.1 hm.2
            have htne : t ≠ imp.id := by rw [himp_id]; exact himp_t
            simp only [update_player_points]
            rw [findPlayer_addPoints_ne t imp.id POINTS_impostor_not_found _ htne]
            exact hcompose
      · rw [if_pos hle]
        exact ⟨(end_game_fields _ GameResult.IMPOSTOR_WINS_HIDDEN).1,
               (end_game_fields _ GameResult.IMPOSTOR_WINS_HIDDEN).2.1,
               end_game_hidden_winner _⟩
    · rw [if_neg (by simpa [update_player_points, hlen] using hle)]
      refine ⟨rfl, rfl, rfl, fun heq => absurd heq himp_t,
              fun _ => ⟨by simpa [update_player_points] using hcompose, ?_⟩⟩
      rw [if_neg hle]
      exact ⟨rfl, rfl, rfl, rfl, rfl⟩

/-- Witness for C2 at a concrete unique-maximum vote (an innocent,
`player_1`, holds the unique maximum; only one other innocent remains,
so the game ends as impostor-wins-by-concealment). -/
theorem process_elimination_unique_max_witness :
    mostVoted exGameUniqueMax.votes = ["player_1"] ∧
    (process_elimination exGameUniqueMax).2.2 = false ∧
    (process_elimination exGameUniqueMax).2.1 = some "player_1" ∧
    (process_elimination exGameUniqueMax).1.eliminated_players = ["player_1"] ∧
    (process_elimination exGameUniqueMax).1.phase = GamePhase.GAME_OVER ∧
    (process_elimination exGameUniqueMax).1.result = GameResult.IMPOSTOR_WINS_HIDDEN := by
  have h := process_elimination_unique_max exGameUniqueMax "player_1" rfl
    (by decide) (by decide)
  have h5 := (h.2.2.2.2 (by decide)).2
  rw [if_pos (by decide)] at h5
  exact ⟨by decide, h.1, h.2.1, by simpa using h.2.2.1, h5.1, h5.2.1⟩

/-! ## Claim C7 -/

/-- Claim C7: in the `VOTING` phase a second `record_vote` call from a
voter who already has a recorded vote leaves the whole game (so in
particular the vote list) unchanged, whatever the target and
justification; and a fresh vote is appended, with the phase becoming
`ELIMINATION` exactly when the number of recorded votes reaches the
number of active players. -/
theorem record_vote_idempotent_threshold (g : GameState) (voter target j : String)
    (hph : g.phase = GamePhase.VOTING) :
    (g.votes.any (fun v => v.voter_id == voter) = true →
        record_vote g voter target j = g) ∧
    (g.votes.any (fun v => v.voter_id == voter) = false →
        (record_vote g voter target j).votes = g.votes ++ [⟨voter, target, j⟩] ∧
        ((record_vote g voter target j).phase = GamePhase.ELIMINATION ↔
            (activePlayers g.players).length ≤ g.votes.length + 1) ∧
        (¬ (activePlayers g.players).length ≤ g.votes.length + 1 →
            (record_vote g voter target j).phase = GamePhase.VOTING)) := by
  constructor
  · intro hdup
    rw [record_vote, if_neg (by simp [hph]), if_pos hdup]
  · intro hnew
    rw [record_vote, if_neg (by simp [hph]), if_neg (by simp [hnew])]
    simp only [List.length_append, List.length_singleton]
    by_cases hc : (activePlayers g.players).length ≤ g.votes.length + 1
    · rw [if_pos hc]
      exact ⟨rfl, by simp [hc], fun hn => absurd hc hn⟩
    · rw [if_neg hc]
      refine ⟨rfl, ?_, fun _ => hph⟩
      simp only [hph]
      constructor
      · intro hv; exact absurd hv (by decide)
      · intro hv; exact absurd hv hc

/-- Witness for C7: a duplicate vote from `player_0` is a complete
no-op, and a fresh vote from `player_1` (second of three active
players) is appended without reaching the elimination threshold. -/
theorem record_vote_idempotent_threshold_witness :
    record_vote exGameVoted "player_0" "player_2" "otra" = exGameVoted ∧
    (record_vote exGameVoted "player_1" "player_0" "x").votes =
      exGameVoted.votes ++ [⟨"player_1", "player_0", "x"⟩] ∧
    (record_vote exGameVoted "player_1" "player_0" "x").phase = GamePhase.VOTING := by
  have h0 := record_vote_idempotent_threshold exGameVoted "player_0" "player_2" "otra" rfl
  have h1 := record_vote_idempotent_threshold exGameVoted "player_1" "player_0" "x" rfl
  exact ⟨h0.1 (by decide), (h1.2 (by decide)).1, (h1.2 (by decide)).2.2 (by decide)⟩

/-! ## Claim C8 -/

/-- Claim C8: in the `IMPOSTOR_GUESS` phase, `process_impostor_guess`
stores the guess, ends the game, and decides the result by the
case- and diacritic-insensitive `is_word_match` comparison — the
matching case yields `IMPOSTOR_WINS_GUESS`, the non-matching case
`INNOCENTS_WIN`; in particular the guess `café` matches the secret
word `cafe`. -/
theorem process_impostor_guess_match (g : GameState) (guess : String)
    (hph : g.phase = GamePhase.IMPOSTOR_GUESS) :
    (process_impostor_guess g guess).impostor_guess = guess ∧
    (process_impostor_guess g guess).phase = GamePhase.GAME_OVER ∧
    (is_word_match guess g.secret_word = true →
        (process_impostor_guess g guess).result = GameResult.IMPOSTOR_WINS_GUESS) ∧
    (is_word_match guess g.secret_word = false →
        (process_impostor_guess g guess).result = GameResult.INNOCENTS_WIN) ∧
    is_word_match "café" "cafe" = true ∧
    is_word_match "CAFÉ" "Cafe" = true ∧
    is_word_match "perro" "cafe" = false := by
  rw [process_impostor_guess, if_neg (by simp [hph])]
  simp only []
  by_cases hm : is_word_match guess g.secret_word
  · rw [if_pos hm]
    have h := end_game_fields { g with impostor_guess := guess } GameResult.IMPOSTOR_WINS_GUESS
    exact ⟨h.2.2.1, h.1, fun _ => h.2.1, fun hfalse => absurd hm (by simp [hfalse]),
           by decide, by decide, by decide⟩
  · rw [if_neg hm]
    have h := end_game_fields { g with impostor_guess := guess } GameResult.INNOCENTS_WIN
    exact ⟨h.2.2.1, h.1, fun htrue => absurd htrue hm, fun _ => h.2.1,
           by decide, by decide, by decide⟩

/-- Witness for C8: the impostor guessing `café` against secret word
`cafe` ends the game with `IMPOSTOR_WINS_GUESS`. -/
theorem process_impostor_guess_match_witness :
    (process_impostor_guess exGameGuess "café").impostor_guess = "café" ∧
    (process_impostor_guess exGameGuess "café").phase = GamePhase.GAME_OVER ∧
    (process_impostor_guess exGameGuess "café").result = GameResult.IMPOSTOR_WINS_GUESS := by
  have h := process_impostor_guess_match exGameGuess "café" rfl
  exact ⟨h.1, h.2.1, h.2.2.1 (by decide)⟩

/-! ## Claim C9 -/

/-- Claim C9, counterexample: in the five-player `playa` scenario with
all four innocents voting for the impostor, `process_elimination` does
eliminate the impostor and transition to `IMPOSTOR_GUESS`, but at that
point every score is still zero — no innocent has received the
impostor-eliminated bonus or the correct-vote bonus. -/
theorem impostor_caught_no_immediate_bonus_cex :
    (process_elimination exGameFivePlayers).1.phase = GamePhase.IMPOSTOR_GUESS ∧
    (process_elimination exGameFivePlayers).2.1 = some "player_4" ∧
    (process_elimination exGameFivePlayers).1.players.map (fun q => q.score) =
      [0, 0, 0, 0, 0] := by
  decide

/-- Claim C9, amended: catching the impostor only transitions the game
to `IMPOSTOR_GUESS`; the innocents' bonuses are granted by `_end_game`
when the impostor's subsequent guess fails (`INNOCENTS_WIN`).  In the
five-player scenario, after the impostor's wrong guess every one of the
four innocents holds the impostor-eliminated bonus plus the
correct-vote bonus. -/
theorem innocents_bonus_after_failed_guess :
    (process_elimination exGameFivePlayers).1.phase = GamePhase.IMPOSTOR_GUESS ∧
    (process_elimination exGameFivePlayers).1.eliminated_players = ["player_4"] ∧
    (process_impostor_guess (process_elimination exGameFivePlayers).1 "montaña").result =
      GameResult.INNOCENTS_WIN ∧
    (process_impostor_guess (process_elimination exGameFivePlayers).1 "montaña").players.map
        (fun q => q.score) =
      [POINTS_impostor_eliminated + POINTS_vote_correct,
       POINTS_impostor_eliminated + POINTS_vote_correct,
       POINTS_impostor_eliminated + POINTS_vote_correct,
       POINTS_impostor_eliminated + POINTS_vote_correct, 0] := by
  decide

/-! ## Claim C10 -/

/-- Claim C10: `record_vote` never consults the player roster — in the
`VOTING` phase a first vote from any voter id (of a player or not) with
any target is appended, every recorded vote counts toward the
active-player threshold that flips the phase to `ELIMINATION`, and an
active player who has not voted still has no vote afterwards, so the
game can enter `ELIMINATION` with active players who never voted. -/
theorem record_vote_no_roster_check (g : GameState) (voter target j : String) (p : Player)
    (hph : g.phase = GamePhase.VOTING)
    (hnew : g.votes.any (fun v => v.voter_id == voter) = false) :
    (record_vote g voter target j).votes = g.votes ++ [⟨voter, target, j⟩] ∧
    ((activePlayers g.players).length ≤ g.votes.length + 1 →
        (record_vote g voter target j).phase = GamePhase.ELIMINATION) ∧
    (p ∈ g.players → p.is_eliminated = false → p.id ≠ voter →
        (g.votes.all (fun v => !(v.voter_id == p.id))) = true →
        ((record_vote g voter target j).votes.all (fun v => !(v.voter_id == p.id))) = true) := by
  rw [record_vote, if_neg (by simp [hph]), if_neg (by simp [hnew])]
  simp only [List.length_append, List.length_singleton]
  by_cases hc : (activePlayers g.players).length ≤ g.votes.length + 1
  · rw [if_pos hc]
    refine ⟨rfl, fun _ => rfl, fun _ _ hpv hall => ?_⟩
    simp only [List.all_append, List.all_cons, List.all_nil, Bool.and_true]
    simp [hall, beq_eq_false_iff_ne, Ne.symm hpv]
  · rw [if_neg hc]
    refine ⟨rfl, fun hth => absurd hth hc, fun _ _ hpv hall => ?_⟩
    simp only [List.all_append, List.all_cons, List.all_nil, Bool.and_true]
    simp [hall, beq_eq_false_iff_ne, Ne.symm hpv]

/-- Witness for C10: `ghost2`, an id belonging to no player, casts the
second vote in a two-active-player game whose first vote also came from
a non-player (`ghost1`); the phase flips to `ELIMINATION` while the
active player `player_1` has cast no vote. -/
theorem record_vote_no_roster_check_witness :
    (record_vote exGameGhostVote "ghost2" "player_1" "x").votes =
      exGameGhostVote.votes ++ [⟨"ghost2", "player_1", "x"⟩] ∧
    (record_vote exGameGhostVote "ghost2" "player_1" "x").phase = GamePhase.ELIMINATION ∧
    ((record_vote exGameGhostVote "ghost2" "player_1" "x").votes.all
        (fun v => !(v.voter_id == "player_1"))) = true := by
  have h := record_vote_no_roster_check exGameGhostVote "ghost2" "player_1" "x"
    (mkPlayer 1) rfl (by decide)
  refine ⟨h.1, h.2.1 (by decide), ?_⟩
  have h3 := h.2.2 (by decide) (by decide) (by decide) (by decide)
  simpa [mkPlayer] using h3

/-! ## Claim C6 -/

theorem broadcast_to_all_getD (m : GameConversationManager) (content : String)
    (excl : Option String) (i : Nat) (hi : i < m.conversations.length) :
    (broadcast_to_all m content excl).conversations.getD i dummyEntry =
      (fun pc => if some pc.1 ≠ excl ∧ pc.2.is_eliminated = false then
          (pc.1, add_user_message pc.2 content) else pc)
        (m.conversations.getD i dummyEntry) := by
  simp only [broadcast_to_all, List.getD_eq_getElem?_getD, List.getElem?_map,
             List.getElem?_eq_getElem hi]
  rfl

/-- Claim C6, counterexample: `broadcast_vote` excludes nobody.  After
Alice (conversation key `player_0`) votes, the vote announcement is
appended to Alice's own transcript as well — the event is not withheld
from the speaker. -/
theorem broadcast_vote_voter_transcript_cex :
    (exManager.conversations.getD 0 dummyEntry).2.player_name = "Alice" ∧
    (exManager.conversations.getD 0 dummyEntry).2.messages = [] ∧
    ((broadcast_vote exManager "Alice" "Bob" "sospechoso").conversations.getD 0
        dummyEntry).2.messages =
      [⟨"user", format_vote_announcement "Alice" "Bob" "sospechoso"⟩] := by
  decide

/-- Claim C6, amended: under the persistent strategy, word and debate
broadcasts append the formatted event to every other non-eliminated
conversation and never to the speaker's own; vote and elimination
broadcasts append to every non-eliminated conversation, the
speaker's/voter's own included; a conversation whose `is_eliminated`
flag is set receives nothing from any broadcast.  (The key of every
conversation entry is also preserved.) -/
theorem persistent_transcript_broadcasts (m : GameConversationManager)
    (sid sname msg vname vfor reason ename : String) (wasImp : Bool) (i : Nat)
    (hi : i < m.conversations.length) :
    (broadcast_debate_message m sid sname msg).conversations.length =
      m.conversations.length ∧
    ((broadcast_debate_message m sid sname msg).conversations.getD i dummyEntry).1 =
      (m.conversations.getD i dummyEntry).1 ∧
    ((m.conversations.getD i dummyEntry).2.is_eliminated = true →
        (broadcast_debate_message m sid sname msg).conversations.getD i dummyEntry =
          m.conversations.getD i dummyEntry ∧
        (broadcast_word m sid sname msg).conversations.getD i dummyEntry =
          m.conversations.getD i dummyEntry ∧
        (broadcast_vote m vname vfor reason).conversations.getD i dummyEntry =
          m.conversations.getD i dummyEntry ∧
        (broadcast_elimination m ename wasImp).conversations.getD i dummyEntry =
          m.conversations.getD i dummyEntry) ∧
    ((m.conversations.getD i dummyEntry).1 = sid →
        (broadcast_debate_message m sid sname msg).conversations.getD i dummyEntry =
          m.conversations.getD i dummyEntry ∧
        (broadcast_word m sid sname msg).conversations.getD i dummyEntry =
          m.conversations.getD i dummyEntry) ∧
    ((m.conversations.getD i dummyEntry).1 ≠ sid →
        (m.conversations.getD i dummyEntry).2.is_eliminated = false →
        ((broadcast_debate_message m sid sname msg).conversations.getD i
            dummyEntry).2.messages =
          (m.conversations.getD i dummyEntry).2.messages ++
            [⟨"user", format_debate_announcement sname msg⟩] ∧
        ((broadcast_word m sid sname msg).conversations.getD i dummyEntry).2.messages =
          (m.conversations.getD i dummyEntry).2.messages ++
            [⟨"user", format_word_announcement sname msg⟩]) ∧
    ((m.conversations.getD i dummyEntry).2.is_eliminated = false →
        ((broadcast_vote m vname vfor reason).conversations.getD i dummyEntry).2.messages =
          (m.conversations.getD i dummyEntry).2.messages ++
            [⟨"user", format_vote_announcement vname vfor reason⟩] ∧
        ((broadcast_elimination m ename wasImp).conversations.getD i
            dummyEntry).2.messages =
          (m.conversations.getD i dummyEntry).2.messages ++
            [⟨"user", format_elimination_announcement ename wasImp⟩]) := by
  have hd := broadcast_to_all_getD m (format_debate_announcement sname msg) (some sid) i hi
  have hw := broadcast_to_all_getD m (format_word_announcement sname msg) (some sid) i hi
  have hv := broadcast_to_all_getD m (format_vote_announcement vname vfor reason) none i hi
  have he := broadcast_to_all_getD m (format_elimination_announcement ename wasImp) none i hi
  refine ⟨by simp [broadcast_debate_message, broadcast_to_all], ?_, ?_, ?_, ?_, ?_⟩
  · rw [broadcast_debate_message, hd]
    dsimp only
    split
    · rfl
    · rfl
  · intro hel
    have hneg : ∀ ex : Option String,
        ¬ (some (m.conversations.getD i dummyEntry).1 ≠ ex ∧
           (m.conversations.getD i dummyEntry).2.is_eliminated = false) := by
      intro ex hcond
      rw [hel] at hcond
      exact Bool.true_eq_false.mp hcond.2
    constructor
    · rw [broadcast_debate_message, hd]; exact if_neg (hneg _)
    constructor
    · rw [broadcast_word, hw]; exact if_neg (hneg _)
    constructor
    · rw [broadcast_vote, hv]; exact if_neg (hneg _)
    · rw [broadcast_elimination, he]; exact if_neg (hneg _)
  · intro hsid
    have hneg : ¬ (some (m.conversations.getD i dummyEntry).1 ≠ some sid ∧
        (m.conversations.getD i dummyEntry).2.is_eliminated = false) := by
      intro hcond
      exact hcond.1 (by rw [hsid])
    constructor
    · rw [broadcast_debate_message, hd]; exact if_neg hneg
    · rw [broadcast_word, hw]; exact if_neg hneg
  · intro hsid hel
    have hpos : some (m.conversations.getD i dummyEntry).1 ≠ some sid ∧
        (m.conversations.getD i dummyEntry).2.is_eliminated = false :=
      ⟨by simpa using hsid, hel⟩
    constructor
    · rw [broadcast_debate_message, hd]
      dsimp only
      rw [if_pos hpos]
      simp [add_user_message]
    · rw [broadcast_word, hw]
      dsimp only
      rw [if_pos hpos]
      simp [add_user_message]
  · intro hel
    have hpos : some (m.conversations.getD i dummyEntry).1 ≠ (none : Option String) ∧
        (m.conversations.getD i dummyEntry).2.is_eliminated = false :=
      ⟨by simp, hel⟩
    constructor
    · rw [broadcast_vote, hv]
      dsimp only
      rw [if_pos hpos]
      simp [add_user_message]
    · rw [broadcast_elimination, he]
      dsimp only
      rw [if_pos hpos]
      simp [add_user_message]

/-- Witness for the amended C6 theorem on the two-player manager:
Bob's transcript gains Alice's debate line, Alice's own transcript is
untouched by her debate line, and Alice's own transcript does gain her
vote announcement. -/
theorem persistent_transcript_broadcasts_witness :
    ((broadcast_debate_message exManager "player_0" "Alice" "hola").conversations.getD 1
        dummyEntry).2.messages =
      [⟨"user", format_debate_announcement "Alice" "hola"⟩] ∧
    (broadcast_debate_message exManager "player_0" "Alice" "hola").conversations.getD 0
        dummyEntry =
      exManager.conversations.getD 0 dummyEntry ∧
    ((broadcast_vote exManager "Alice" "Bob" "razon").conversations.getD 0
        dummyEntry).2.messages =
      [⟨"user", format_vote_announcement "Alice" "Bob" "razon"⟩] := by
  have h1 := persistent_transcript_broadcasts exManager "player_0" "Alice" "hola"
    "Alice" "Bob" "razon" "Bob" false 1 (by decide)
  have h0 := persistent_transcript_broadcasts exManager "player_0" "Alice" "hola"
    "Alice" "Bob" "razon" "Bob" false 0 (by decide)
  refine ⟨?_, ?_, ?_⟩
  · have h := (h1.2.2.2.2.1 (by decide) (by decide)).1
    simpa using h
  · exact (h0.2.2.2.1 (by decide)).1
  · have h := (h0.2.2.2.2.2 (by decide)).1
    simpa using h

end Impostor
